import Mathlib

/-!
Verification of the OpenCode process supervisor (`src/ProcessManager.ts`,
`src/types.ts`) as a shallow embedding.

The supervisor's mutable instance fields become a record `PM`; the
synchronous methods become pure state transformers; the asynchronous parts
(the initial health probe, the poll loop, and the `exit`/`error` event
handlers that may fire while `start()` is suspended at an `await`) are
driven by an explicit environment `StartEnv` that supplies the probe
outcomes and the interleaved events.  External effects (the actual spawn,
the HTTP fetch, the kill signals) are recorded as `ExtAction`s or abstracted
into oracles; everything else follows the TypeScript line by line.
-/

/-- The supervisor states (`ProcessState` in ProcessManager.ts). -/
inductive ProcessState
  | stopped
  | starting
  | running
  | error
deriving DecidableEq, Repr

/-- Plugin settings (`OpenCodeSettings` in types.ts). -/
structure OpenCodeSettings where
  port : Nat
  hostname : String
  autoStart : Bool
  opencodePath : String
  projectDirectory : String
  startupTimeout : Nat
deriving DecidableEq, Repr

/-- `DEFAULT_SETTINGS` from types.ts. -/
def DEFAULT_SETTINGS : OpenCodeSettings :=
  { port := 14096, hostname := "127.0.0.1", autoStart := false,
    opencodePath := "opencode", projectDirectory := "",
    startupTimeout := 15000 }

/-- The mutable fields of a `ProcessManager` instance.  `process` is the
optional child-process handle (identified by a spawn counter), `notified`
records the sequence of `onStateChange` callback invocations (oldest
first), and `spawnCount` counts how many processes have been spawned. -/
structure PM where
  process : Option Nat
  state : ProcessState
  lastError : Option String
  earlyExitCode : Option Int
  settings : OpenCodeSettings
  workingDirectory : String
  projectDirectory : String
  notified : List ProcessState
  spawnCount : Nat
deriving DecidableEq, Repr

/-- The `ProcessManager` constructor: fresh instance with no process,
state `stopped`, and no error. -/
def initPM (settings : OpenCodeSettings) (workingDirectory projectDirectory : String) : PM :=
  { process := none, state := ProcessState.stopped, lastError := none,
    earlyExitCode := none, settings := settings,
    workingDirectory := workingDirectory, projectDirectory := projectDirectory,
    notified := [], spawnCount := 0 }

/-- updateSettings(settings). -/
def updateSettings (s : OpenCodeSettings) (pm : PM) : PM :=
  { pm with settings := s }

/-- updateProjectDirectory(directory). -/
def updateProjectDirectory (d : String) (pm : PM) : PM :=
  { pm with projectDirectory := d }

/-- getState(). -/
def getState (pm : PM) : ProcessState := pm.state

/-- getLastError(). -/
def getLastError (pm : PM) : Option String := pm.lastError

/-- private setState: assign the state and fire the `onStateChange`
callback (recorded in `notified`). -/
def setState (st : ProcessState) (pm : PM) : PM :=
  { pm with state := st, notified := pm.notified ++ [st] }

/-- private setError: store the message, then transition to `error`
(the TypeScript also returns `false`, reproduced at each call site). -/
def setError (message : String) (pm : PM) : PM :=
  setState ProcessState.error { pm with lastError := some message }

/-- stop(): with no handle, just transition to `stopped`; otherwise
transition to `stopped`, clear the handle, and signal the process
(SIGTERM now, a deferred SIGKILL check after 2000 ms — both external
effects on the child, not on the supervisor's fields). -/
def stop (pm : PM) : PM :=
  if pm.process = none then setState ProcessState.stopped pm
  else
    let pm1 := setState ProcessState.stopped pm
    { pm1 with process := none }

/-- The `exit` event handler attached in start(): clear the handle; if the
exit happened while `starting` with a non-null, non-zero code, record it
as the early exit code; if it happened while `running`, transition to
`stopped`. -/
def exitHandler (code : Option Int) (pm : PM) : PM :=
  let pm1 : PM := { pm with process := none }
  let pm2 : PM :=
    if pm1.state = ProcessState.starting ∧ code ≠ none ∧ code ≠ some 0 then
      { pm1 with earlyExitCode := code }
    else pm1
  if pm2.state = ProcessState.running then setState ProcessState.stopped pm2 else pm2

/-- The `error` event handler attached in start(): clear the handle, then
set an executable-not-found message when the failure is ENOENT and a
generic failed-to-start message otherwise. -/
def errorHandler (enoent : Bool) (message : String) (pm : PM) : PM :=
  let pm1 : PM := { pm with process := none }
  if enoent then
    setError ("Executable not found at \x27" ++ pm1.settings.opencodePath ++ "\x27") pm1
  else
    setError ("Failed to start: " ++ message) pm1

/-- An HTTP response as far as checkServerHealth observes it. -/
structure Response where
  status : Nat
deriving DecidableEq, Repr

/-- response.ok: status in the 2xx range. -/
def Response.ok (r : Response) : Bool := 200 ≤ r.status && r.status < 300

/-- Ways the single `fetch` of checkServerHealth can fail (a thrown
network error, or the 2000 ms AbortSignal timeout). -/
inductive FetchFailure
  | network (message : String)
  | timedOut
deriving DecidableEq, Repr

/-- private checkServerHealth, as a total function of the outcome of its
`fetch` call: the try/catch maps every failure to `false`, and a response
to `response.ok`.  Nothing escapes the catch, so the embedding is total. -/
def checkServerHealth (outcome : Except FetchFailure Response) : Bool :=
  match outcome with
  | Except.error _ => false
  | Except.ok r => r.ok

/-- The base64 alphabet used by `btoa`. -/
def b64Alphabet : List Char :=
  "ABCDEFGHIJKLMNOPQRSTUVWXYZabcdefghijklmnopqrstuvwxyz0123456789+/".data

/-- One base64 digit. -/
def b64Char (n : Nat) : Char := b64Alphabet.getD n 'A'

/-- Standard base64 of a byte sequence, with `=` padding. -/
def b64Chunks : List Nat → String
  | [] => ""
  | [a] =>
      String.mk [b64Char (a / 4), b64Char (a % 4 * 16)] ++ "=="
  | [a, b] =>
      String.mk [b64Char (a / 4), b64Char (a % 4 * 16 + b / 16),
        b64Char (b % 16 * 4)] ++ "="
  | a :: b :: c :: rest =>
      String.mk [b64Char (a / 4), b64Char (a % 4 * 16 + b / 16),
        b64Char (b % 16 * 4 + c / 64), b64Char (c % 64)] ++ b64Chunks rest

/-- Models the platform `btoa` builtin used by getUrl(): base64 of the
string's code units, throwing (`none`) when any code unit exceeds 0xFF.
Code points at or below 0xFF coincide with single UTF-16 code units, and
any higher code point makes the real `btoa` throw as well (directly, or
via its surrogate halves), so the `none` cases coincide. -/
def btoa (s : String) : Option String :=
  if s.data.all (fun c => c.toNat ≤ 255) then
    some (b64Chunks (s.data.map Char.toNat))
  else none

/-- getUrl(): `http://hostname:port/` followed by the btoa encoding of the
project directory; `none` models the btoa exception escaping to the
caller. -/
def getUrl (pm : PM) : Option String :=
  match btoa pm.projectDirectory with
  | some encodedPath =>
      some ("http://" ++ pm.settings.hostname ++ ":" ++
        toString pm.settings.port ++ "/" ++ encodedPath)
  | none => none

/-- path.join for the paths buildUnixEnvSetup assembles. -/
def pjoin (a b : String) : String := a ++ "/" ++ b

/-- The candidate nvm directories, in order: `~/.nvm`, `~/.config/nvm`,
then `$NVM_DIR`; the `.filter(Boolean)` drops an unset or empty entry. -/
def nvmCandidates (home : String) (nvmDirEnv : Option String) : List String :=
  ([pjoin home ".nvm", pjoin (pjoin home ".config") "nvm"] ++
    (match nvmDirEnv with | some d => [d] | none => [])).filter
    (fun d => !d.isEmpty)

/-- The shell fragment sourcing a profile file, stderr discarded. -/
def sourcePart (p : String) : String :=
  "source \"" ++ p ++ "\" 2>/dev/null"

/-- The shell fragment exporting NVM_DIR and sourcing its nvm.sh, stderr
discarded. -/
def nvmSourcePart (d : String) : String :=
  "export NVM_DIR=\"" ++ d ++ "\"; source \"" ++ pjoin d "nvm.sh" ++ "\" 2>/dev/null"

/-- The for-loop over nvm candidate directories: source the first whose
`nvm.sh` exists, then break. -/
def firstNvmPart (fs : String → Bool) : List String → List String
  | [] => []
  | d :: rest =>
      if fs (pjoin d "nvm.sh") then [nvmSourcePart d] else firstNvmPart fs rest

/-- The fixed Homebrew-style install directories probed for PATH. -/
def brewPaths : List String := ["/opt/homebrew/bin", "/usr/local/bin"]

/-- The shell fragment prepending directories to PATH. -/
def pathExportPart (ds : List String) : String :=
  "export PATH=\"" ++ String.intercalate ":" ds ++ ":$PATH\""

/-- private buildUnixEnvSetup, before joining: the list of `;`-separated
parts.  `fs` is the `existsSync` oracle and `nvmDirEnv` is
`process.env.NVM_DIR`. -/
def buildUnixEnvSetupParts (fs : String → Bool) (nvmDirEnv : Option String)
    (home : String) (isZsh : Bool) : List String :=
  let profileParts :=
    if isZsh then
      if fs (pjoin home ".zshrc") then [sourcePart (pjoin home ".zshrc")] else []
    else
      firstNvmPart fs (nvmCandidates home nvmDirEnv) ++
        (if fs (pjoin home ".bashrc") then [sourcePart (pjoin home ".bashrc")] else [])
  let existingBrewPaths := brewPaths.filter fs
  profileParts ++
    (if existingBrewPaths.isEmpty then [] else [pathExportPart existingBrewPaths])

/-- private buildUnixEnvSetup: join the parts with `; ` and append a
final `;`, or return the empty string when there is nothing to set up. -/
def buildUnixEnvSetup (fs : String → Bool) (nvmDirEnv : Option String)
    (home : String) (isZsh : Bool) : String :=
  let parts := buildUnixEnvSetupParts fs nvmDirEnv home isZsh
  if parts.isEmpty then "" else String.intercalate "; " parts ++ ";"

/-- The externally visible actions a start() run performs: the initial
health probe, the spawn, and entering the poll loop with its deadline. -/
inductive ExtAction
  | probe
  | spawnProc
  | poll (deadlineMs : Nat)
deriving DecidableEq, Repr

/-- An asynchronous event that can fire while start() is suspended in the
poll loop: the child's `exit` event, or its `error` event. -/
inductive MidEvent
  | exited (code : Option Int)
  | errored (enoent : Bool) (message : String)
deriving DecidableEq, Repr

/-- Dispatch one mid-poll event to its handler. -/
def applyMidEvent (pm : PM) (e : MidEvent) : PM :=
  match e with
  | MidEvent.exited code => exitHandler code pm
  | MidEvent.errored enoent message => errorHandler enoent message pm

/-- The deadline start() passes to waitForServerOrExit in
src/ProcessManager.ts (line 127): the literal 15000. -/
def startPollDeadline : Nat := 15000

/-- The deadline the near-duplicate supervisor implementation (the
unnamed companion source file, line 132) passes to waitForServerOrExit:
the configured `settings.startupTimeout`. -/
def startPollDeadlineAlt (s : OpenCodeSettings) : Nat := s.startupTimeout

/-- The oracle for one start() run: the result of the initial
checkServerHealth, the child-process events that fire while the poll loop
is suspended, and whether a poll probe eventually succeeded. -/
structure StartEnv where
  alreadyHealthy : Bool
  midEvents : List MidEvent
  ready : Bool

/-- start(), as a function of the instance state and the run's
environment.  Returns the new instance state, the boolean result, and the
external actions performed.  Mirrors src/ProcessManager.ts lines 59-147:
idempotence check; transition to `starting` and clear error scratch;
missing-directory guard; already-healthy shortcut; spawn; poll; then the
failure classification, which runs stop() before inspecting the handle. -/
def startRun (env : StartEnv) (pm : PM) : PM × Bool × List ExtAction :=
  if pm.state = ProcessState.running ∨ pm.state = ProcessState.starting then
    (pm, true, [])
  else
    let pmA := setState ProcessState.starting pm
    let pmB : PM := { pmA with lastError := none, earlyExitCode := none }
    if pmB.projectDirectory = "" then
      (setError "Project directory (vault) not configured" pmB, false, [])
    else if env.alreadyHealthy then
      (setState ProcessState.running pmB, true, [ExtAction.probe])
    else
      let pmC : PM := { pmB with process := some pmB.spawnCount, spawnCount := pmB.spawnCount + 1 }
      let acts := [ExtAction.probe, ExtAction.spawnProc, ExtAction.poll startPollDeadline]
      let pmD := env.midEvents.foldl applyMidEvent pmC
      if env.ready then (setState ProcessState.running pmD, true, acts)
      else if pmD.state = ProcessState.error then (pmD, false, acts)
      else
        let pmE := stop pmD
        match pmE.earlyExitCode with
        | some c =>
            (setError ("Process exited unexpectedly (exit code " ++ toString c ++ ")") pmE,
              false, acts)
        | none =>
            if pmE.process = none then
              (setError "Process exited before server became ready" pmE, false, acts)
            else
              (setError "Server failed to start within timeout" pmE, false, acts)

/-- One atomic interaction with a ProcessManager instance: a public call
(start with some environment, stop, a configuration update — the getters
do not mutate) or an asynchronous child-process event. -/
inductive Step : PM → PM → Prop
  | start (env : StartEnv) (pm : PM) : Step pm (startRun env pm).1
  | stopCall (pm : PM) : Step pm (stop pm)
  | settingsUpdate (s : OpenCodeSettings) (pm : PM) : Step pm (updateSettings s pm)
  | projectDirUpdate (d : String) (pm : PM) : Step pm (updateProjectDirectory d pm)
  | exitEvent (code : Option Int) (pm : PM) : Step pm (exitHandler code pm)
  | errorEvent (enoent : Bool) (message : String) (pm : PM) : Step pm (errorHandler enoent message pm)

/-- The states a ProcessManager instance can reach from construction
under any sequence of steps. -/
inductive Reachable : PM → Prop
  | init (s : OpenCodeSettings) (wd pd : String) : Reachable (initPM s wd pd)
  | step {pm pm' : PM} : Reachable pm → Step pm pm' → Reachable pm'

/-- The supervisor fields without the notification log, for comparing
states up to callback history. -/
structure PMCore where
  process : Option Nat
  state : ProcessState
  lastError : Option String
  earlyExitCode : Option Int
  settings : OpenCodeSettings
  workingDirectory : String
  projectDirectory : String
  spawnCount : Nat
deriving DecidableEq, Repr

/-- Project a PM onto its core fields. -/
def PM.core (pm : PM) : PMCore :=
  { process := pm.process, state := pm.state, lastError := pm.lastError,
    earlyExitCode := pm.earlyExitCode, settings := pm.settings,
    workingDirectory := pm.workingDirectory,
    projectDirectory := pm.projectDirectory, spawnCount := pm.spawnCount }

/-- When the state is `error`, a non-empty message is stored. -/
def ErrWithMsg (pm : PM) : Prop :=
  pm.state = ProcessState.error → ∃ m, pm.lastError = some m ∧ m ≠ ""

/-- A start() run in which the initial probe fails, the spawned process
neither exits nor errors, and no poll probe ever succeeds: the process is
still alive when the deadline elapses. -/
def noEventTimeoutEnv : StartEnv :=
  { alreadyHealthy := false, midEvents := [], ready := false }

/-- The run of start() under `noEventTimeoutEnv` from a fresh instance
with a configured vault directory. -/
def timeoutRunResult : PM × Bool × List ExtAction :=
  startRun noEventTimeoutEnv (initPM DEFAULT_SETTINGS "/w" "/vault")

/-- Default settings with a startup timeout of 5000 ms instead of the
default 15000 ms. -/
def altTimeoutSettings : OpenCodeSettings :=
  { DEFAULT_SETTINGS with startupTimeout := 5000 }

/-- A reachable state exhibiting a stale error message: start() on an
instance whose project directory is unset fails into `error`, and the
following stop() moves the state to `stopped` without clearing
`lastError`. -/
def staleErrorPM : PM :=
  stop (startRun noEventTimeoutEnv (initPM DEFAULT_SETTINGS "/w" "")).1

theorem string_append_ne_empty (a b : String) (h : a ≠ "") : a ++ b ≠ "" := by
  intro hab
  apply h
  have hd : a.data ++ b.data = [] := by
    have := congrArg String.data hab
    simpa [String.data_append] using this
  have ha : a.data = [] := (List.append_eq_nil.mp hd).1
  exact String.ext ha

theorem setState_state (st : ProcessState) (pm : PM) : (setState st pm).state = st := rfl

theorem setState_lastError (st : ProcessState) (pm : PM) :
    (setState st pm).lastError = pm.lastError := rfl

theorem setError_lastError (m : String) (pm : PM) : (setError m pm).lastError = some m := rfl

theorem setError_state (m : String) (pm : PM) : (setError m pm).state = ProcessState.error := rfl

theorem errWithMsg_setState (st : ProcessState) (pm : PM) (h : st ≠ ProcessState.error) :
    ErrWithMsg (setState st pm) := by
  intro he
  rw [setState_state] at he
  exact absurd he h

theorem errWithMsg_setError (m : String) (pm : PM) (hm : m ≠ "") :
    ErrWithMsg (setError m pm) :=
  fun _ => ⟨m, rfl, hm⟩

theorem exitHandler_process (code : Option Int) (pm : PM) :
    (exitHandler code pm).process = none := by
  unfold exitHandler
  dsimp only
  split <;> split <;> rfl

theorem exitHandler_state (code : Option Int) (pm : PM) :
    (exitHandler code pm).state =
      if pm.state = ProcessState.running then ProcessState.stopped else pm.state := by
  unfold exitHandler
  dsimp only
  split <;> split <;> simp_all [setState]

theorem exitHandler_lastError (code : Option Int) (pm : PM) :
    (exitHandler code pm).lastError = pm.lastError := by
  unfold exitHandler
  dsimp only
  split <;> split <;> rfl

theorem exitHandler_earlyExitCode (code : Option Int) (pm : PM) :
    (exitHandler code pm).earlyExitCode =
      if pm.state = ProcessState.starting ∧ code ≠ none ∧ code ≠ some 0 then code
      else pm.earlyExitCode := by
  unfold exitHandler
  dsimp only
  split <;> split <;> simp_all [setState]

theorem errWithMsg_exitHandler (code : Option Int) (pm : PM) (h : ErrWithMsg pm) :
    ErrWithMsg (exitHandler code pm) := by
  intro he
  rw [exitHandler_state] at he
  rw [exitHandler_lastError]
  split at he
  · cases he
  · exact h he

theorem errWithMsg_errorHandler (enoent : Bool) (msg : String) (pm : PM) :
    ErrWithMsg (errorHandler enoent msg pm) := by
  unfold errorHandler
  cases enoent
  · simp only [Bool.false_eq_true, if_false]
    exact errWithMsg_setError _ _ (string_append_ne_empty _ _ (by decide))
  · simp only [if_true]
    exact errWithMsg_setError _ _
      (string_append_ne_empty _ _ (string_append_ne_empty _ _ (by decide)))

theorem stop_state (pm : PM) : (stop pm).state = ProcessState.stopped := by
  unfold stop
  split <;> rfl

theorem stop_process (pm : PM) : (stop pm).process = none := by
  unfold stop
  split
  · next h => simpa [setState] using h
  · rfl

theorem errWithMsg_stop (pm : PM) : ErrWithMsg (stop pm) := by
  intro he
  rw [stop_state] at he
  cases he

theorem stop_core (pm : PM) :
    (stop pm).core = { pm.core with state := ProcessState.stopped, process := none } := by
  unfold stop PM.core setState
  split <;> simp_all

theorem errWithMsg_applyMidEvent (pm : PM) (e : MidEvent) (h : ErrWithMsg pm) :
    ErrWithMsg (applyMidEvent pm e) := by
  cases e with
  | exited code => exact errWithMsg_exitHandler code pm h
  | errored enoent msg => exact errWithMsg_errorHandler enoent msg pm

theorem errWithMsg_foldl (l : List MidEvent) (pm : PM) (h : ErrWithMsg pm) :
    ErrWithMsg (l.foldl applyMidEvent pm) := by
  induction l generalizing pm with
  | nil => exact h
  | cons e rest ih => exact ih _ (errWithMsg_applyMidEvent _ _ h)

theorem errWithMsg_startRun (env : StartEnv) (pm : PM) (h : ErrWithMsg pm) :
    ErrWithMsg (startRun env pm).1 := by
  unfold startRun
  dsimp only
  split
  · exact h
  · split
    · exact errWithMsg_setError _ _ (by decide)
    · split
      · exact errWithMsg_setState _ _ (by decide)
      · split
        · exact errWithMsg_setState _ _ (by decide)
        · split
          · apply errWithMsg_foldl
            intro he
            rw [setState_state] at he
            cases he
          · split
            · exact errWithMsg_setError _ _
                (string_append_ne_empty _ _ (string_append_ne_empty _ _ (by decide)))
            · split
              · exact errWithMsg_setError _ _ (by decide)
              · exact errWithMsg_setError _ _ (by decide)

theorem reachable_errWithMsg (pm : PM) (h : Reachable pm) : ErrWithMsg pm := by
  induction h with
  | init s wd pd =>
      intro he
      cases he
  | step hprev hstep ih =>
      cases hstep with
      | start env => exact errWithMsg_startRun env _ ih
      | stopCall => exact errWithMsg_stop _
      | settingsUpdate s => exact ih
      | projectDirUpdate d => exact ih
      | exitEvent code => exact errWithMsg_exitHandler code _ ih
      | errorEvent enoent msg => exact errWithMsg_errorHandler enoent msg _

theorem firstNvmPart_mem (fs : String → Bool) (l : List String) (p : String)
    (hp : p ∈ firstNvmPart fs l) :
    ∃ d, d ∈ l ∧ fs (pjoin d "nvm.sh") = true ∧ p = nvmSourcePart d := by
  induction l with
  | nil => simp [firstNvmPart] at hp
  | cons d rest ih =>
      rw [firstNvmPart] at hp
      by_cases hd : fs (pjoin d "nvm.sh") = true
      · rw [if_pos hd, List.mem_singleton] at hp
        exact ⟨d, List.mem_cons_self d rest, hd, hp⟩
      · rw [if_neg hd] at hp
        obtain ⟨d2, hd2, hfs, hp2⟩ := ih hp
        exact ⟨d2, List.mem_cons_of_mem d hd2, hfs, hp2⟩

/-- C8: every part of the Unix environment setup is existence-guarded:
each `source` names either the zshrc/bashrc profile or an nvm.sh from the
ordered candidate directories, and only when the existence oracle
confirms the path, with stderr redirected to /dev/null (visible in
`sourcePart`/`nvmSourcePart`); the PATH prepend holds exactly the
package-manager bin directories that exist on disk. -/
theorem unix_env_parts_guarded (fs : String → Bool) (nvmDirEnv : Option String)
    (home : String) (isZsh : Bool) (p : String)
    (hp : p ∈ buildUnixEnvSetupParts fs nvmDirEnv home isZsh) :
    (∃ path, (path = pjoin home ".zshrc" ∨ path = pjoin home ".bashrc") ∧
        fs path = true ∧ p = sourcePart path) ∨
      (∃ d, d ∈ nvmCandidates home nvmDirEnv ∧ fs (pjoin d "nvm.sh") = true ∧
        p = nvmSourcePart d) ∨
      (∃ ds, ds = brewPaths.filter fs ∧ ds ≠ [] ∧ (∀ d ∈ ds, fs d = true) ∧
        p = pathExportPart ds) := by
  unfold buildUnixEnvSetupParts at hp
  rw [List.mem_append] at hp
  rcases hp with hp | hp
  · by_cases hz : isZsh = true
    · rw [if_pos hz] at hp
      by_cases hzr : fs (pjoin home ".zshrc") = true
      · rw [if_pos hzr, List.mem_singleton] at hp
        exact Or.inl ⟨pjoin home ".zshrc", Or.inl rfl, hzr, hp⟩
      · rw [if_neg hzr] at hp
        cases hp
    · rw [if_neg hz, List.mem_append] at hp
      rcases hp with hp | hp
      · obtain ⟨d, hd, hfs, hp2⟩ := firstNvmPart_mem fs _ p hp
        exact Or.inr (Or.inl ⟨d, hd, hfs, hp2⟩)
      · by_cases hbr : fs (pjoin home ".bashrc") = true
        · rw [if_pos hbr, List.mem_singleton] at hp
          exact Or.inl ⟨pjoin home ".bashrc", Or.inr rfl, hbr, hp⟩
        · rw [if_neg hbr] at hp
          cases hp
  · by_cases hb : (brewPaths.filter fs).isEmpty = true
    · rw [if_pos hb] at hp
      cases hp
    · rw [if_neg hb, List.mem_singleton] at hp
      refine Or.inr (Or.inr ⟨brewPaths.filter fs, rfl, ?_, ?_, hp⟩)
      · intro hnil
        rw [hnil] at hb
        exact hb rfl
      · intro d hd
        exact (List.mem_filter.mp hd).2

/-- Witness for unix_env_parts_guarded: an oracle under which only
/usr/local/bin exists, a zsh user with no zshrc; the single produced part
is the PATH prepend. -/
theorem unix_env_parts_guarded_witness :
    (∃ path, (path = pjoin "/home/u" ".zshrc" ∨ path = pjoin "/home/u" ".bashrc") ∧
        (fun s => s == "/usr/local/bin") path = true ∧
        pathExportPart ["/usr/local/bin"] = sourcePart path) ∨
      (∃ d, d ∈ nvmCandidates "/home/u" none ∧
        (fun s => s == "/usr/local/bin") (pjoin d "nvm.sh") = true ∧
        pathExportPart ["/usr/local/bin"] = nvmSourcePart d) ∨
      (∃ ds, ds = brewPaths.filter (fun s => s == "/usr/local/bin") ∧ ds ≠ [] ∧
        (∀ d ∈ ds, (fun s => s == "/usr/local/bin") d = true) ∧
        pathExportPart ["/usr/local/bin"] = pathExportPart ds) :=
  unix_env_parts_guarded (fun s => s == "/usr/local/bin") none "/home/u" true
    (pathExportPart ["/usr/local/bin"]) (by decide)

/-- C1 (code bug): in the run where the initial probe fails, the spawned
process neither exits nor errors, and no poll probe succeeds — so the
process is still alive when the deadline elapses — start() reports
"Process exited before server became ready" rather than the timeout
message: the classification calls stop(), which always clears the
handle, before testing `!this.process`, so the "Server failed to start
within timeout" branch is unreachable. -/
theorem timeout_run_misclassified :
    timeoutRunResult.1.lastError = some "Process exited before server became ready" ∧
      timeoutRunResult.1.lastError ≠ some "Server failed to start within timeout" ∧
      timeoutRunResult.2.1 = false ∧
      timeoutRunResult.1.state = ProcessState.error := by
  refine ⟨rfl, by decide, rfl, rfl⟩

/-- C2 (code bug): with the startup timeout configured to 5000 ms,
start() still enters the poll loop with the literal 15000 ms deadline
(src/ProcessManager.ts line 127); the configured value is never the one
passed, though the near-duplicate implementation's call site
(`startPollDeadlineAlt`) does pass the configured 5000 ms. -/
theorem startup_timeout_setting_ignored :
    (startRun noEventTimeoutEnv (initPM altTimeoutSettings "/w" "/vault")).2.2 =
        [ExtAction.probe, ExtAction.spawnProc, ExtAction.poll 15000] ∧
      ExtAction.poll altTimeoutSettings.startupTimeout ∉
        (startRun noEventTimeoutEnv (initPM altTimeoutSettings "/w" "/vault")).2.2 ∧
      startPollDeadlineAlt altTimeoutSettings = 5000 := by
  refine ⟨rfl, by decide, rfl⟩

/-- C3 (amended): in every state reachable by any sequence of public
operations and process events, state `error` implies a non-empty
`lastError`.  The claimed converse fails — see the counterexample —
because stop() moves the state to `stopped` without clearing
`lastError`. -/
theorem error_state_has_nonempty_lastError (pm : PM) (h : Reachable pm)
    (he : pm.state = ProcessState.error) :
    ∃ m, pm.lastError = some m ∧ m ≠ "" :=
  reachable_errWithMsg pm h he

/-- Witness for error_state_has_nonempty_lastError: the reachable error
state produced by start() on an instance with an unset project
directory. -/
theorem error_state_has_nonempty_lastError_witness :
    ∃ m, (startRun noEventTimeoutEnv (initPM DEFAULT_SETTINGS "/w" "")).1.lastError
        = some m ∧ m ≠ "" :=
  error_state_has_nonempty_lastError _
    (Reachable.step (Reachable.init DEFAULT_SETTINGS "/w" "")
      (Step.start noEventTimeoutEnv _))
    (by decide)

/-- C3 counterexample: a reachable state — start() failing on an unset
project directory, then stop() — whose `lastError` is non-empty while
its state is `stopped`, refuting "lastError is non-empty only if state
is error". -/
theorem lastError_nonempty_in_stopped_state :
    Reachable staleErrorPM ∧ staleErrorPM.state = ProcessState.stopped ∧
      staleErrorPM.lastError = some "Project directory (vault) not configured" ∧
      staleErrorPM.state ≠ ProcessState.error :=
  ⟨Reachable.step
      (Reachable.step (Reachable.init DEFAULT_SETTINGS "/w" "")
        (Step.start noEventTimeoutEnv _))
      (Step.stopCall _),
    rfl, rfl, by decide⟩

/-- C4: when the supervisor is already `running` or `starting`, start()
returns success with the instance unchanged — no state change, no
notification, no health probe, no spawn (the action trace is empty). -/
theorem start_idempotent_when_active (env : StartEnv) (pm : PM)
    (h : pm.state = ProcessState.running ∨ pm.state = ProcessState.starting) :
    startRun env pm = (pm, true, []) := by
  unfold startRun
  rw [if_pos h]

/-- Witness for start_idempotent_when_active on a running instance. -/
theorem start_idempotent_when_active_witness :
    startRun noEventTimeoutEnv
        { initPM DEFAULT_SETTINGS "/w" "/vault" with state := ProcessState.running } =
      ({ initPM DEFAULT_SETTINGS "/w" "/vault" with state := ProcessState.running },
        true, []) :=
  start_idempotent_when_active noEventTimeoutEnv _ (Or.inl rfl)

/-- C5: stop() — embedded as a total function, so it never raises —
always leaves the state `stopped` with the handle cleared, from every
starting state, and a second stop() yields the same supervisor state as
the first (the callback is re-notified of `stopped`, but every stored
field agrees). -/
theorem stop_always_stopped_and_idempotent (pm : PM) :
    (stop pm).state = ProcessState.stopped ∧ (stop pm).process = none ∧
      (stop (stop pm)).core = (stop pm).core := by
  refine ⟨stop_state pm, stop_process pm, ?_⟩
  rw [stop_core (stop pm), stop_core pm]

/-- C6: the exit observer clears the stored handle in every case; an exit
while `starting` with a non-null, non-zero code records that code as the
early exit code; an exit while `running` transitions directly to
`stopped` with `lastError` and the early exit code untouched (no error
recorded). -/
theorem exit_observer_spec (pm : PM) (code : Option Int) :
    (exitHandler code pm).process = none ∧
      (pm.state = ProcessState.starting → code ≠ none → code ≠ some 0 →
        (exitHandler code pm).earlyExitCode = code) ∧
      (pm.state = ProcessState.running →
        (exitHandler code pm).state = ProcessState.stopped ∧
          (exitHandler code pm).lastError = pm.lastError ∧
          (exitHandler code pm).earlyExitCode = pm.earlyExitCode) := by
  refine ⟨exitHandler_process code pm, ?_, ?_⟩
  · intro h1 h2 h3
    rw [exitHandler_earlyExitCode, if_pos ⟨h1, h2, h3⟩]
  · intro hr
    refine ⟨?_, exitHandler_lastError code pm, ?_⟩
    · rw [exitHandler_state, if_pos hr]
    · rw [exitHandler_earlyExitCode, if_neg]
      intro hc
      rw [hr] at hc
      cases hc.1

/-- C7: the health probe is a total function of its fetch outcome (the
try/catch lets nothing propagate); a thrown network error and the
request timeout yield false, and a response yields true exactly when its
status is 2xx — so every non-2xx status also yields false. -/
theorem health_probe_spec :
    (∀ m : String, checkServerHealth (Except.error (FetchFailure.network m)) = false) ∧
      checkServerHealth (Except.error FetchFailure.timedOut) = false ∧
      (∀ r : Response,
        checkServerHealth (Except.ok r) = true ↔ 200 ≤ r.status ∧ r.status < 300) := by
  refine ⟨fun m => rfl, rfl, fun r => ?_⟩
  simp [checkServerHealth, Response.ok, Bool.and_eq_true, decide_eq_true_eq]

/-- C9: updateSettings and updateProjectDirectory touch only their own
configuration field: state, last error, process handle, working
directory, spawn count and the notification log are all unchanged, so no
state-change notification is emitted and the running process is
unaffected. -/
theorem config_updates_frame (pm : PM) (s : OpenCodeSettings) (d : String) :
    (updateSettings s pm).settings = s ∧
      (updateSettings s pm).state = pm.state ∧
      (updateSettings s pm).lastError = pm.lastError ∧
      (updateSettings s pm).process = pm.process ∧
      (updateSettings s pm).earlyExitCode = pm.earlyExitCode ∧
      (updateSettings s pm).workingDirectory = pm.workingDirectory ∧
      (updateSettings s pm).projectDirectory = pm.projectDirectory ∧
      (updateSettings s pm).notified = pm.notified ∧
      (updateSettings s pm).spawnCount = pm.spawnCount ∧
      (updateProjectDirectory d pm).projectDirectory = d ∧
      (updateProjectDirectory d pm).state = pm.state ∧
      (updateProjectDirectory d pm).lastError = pm.lastError ∧
      (updateProjectDirectory d pm).process = pm.process ∧
      (updateProjectDirectory d pm).earlyExitCode = pm.earlyExitCode ∧
      (updateProjectDirectory d pm).workingDirectory = pm.workingDirectory ∧
      (updateProjectDirectory d pm).settings = pm.settings ∧
      (updateProjectDirectory d pm).notified = pm.notified ∧
      (updateProjectDirectory d pm).spawnCount = pm.spawnCount :=
  ⟨rfl, rfl, rfl, rfl, rfl, rfl, rfl, rfl, rfl, rfl, rfl, rfl, rfl, rfl, rfl, rfl, rfl, rfl⟩

/-- C10: getUrl is total exactly on Latin-1 project directories: when
every character is at most 0xFF it returns http://hostname:port/ followed
by the base64 of the directory; when some character exceeds 0xFF the
btoa encoding throws, so getUrl raises — concretely for the directory
"π". -/
theorem getUrl_latin1_total (pm : PM) :
    ((∀ c ∈ pm.projectDirectory.data, c.toNat ≤ 255) →
        getUrl pm = some ("http://" ++ pm.settings.hostname ++ ":" ++
          toString pm.settings.port ++ "/" ++
          b64Chunks (pm.projectDirectory.data.map Char.toNat))) ∧
      ((∃ c ∈ pm.projectDirectory.data, 255 < c.toNat) → getUrl pm = none) ∧
      getUrl (initPM DEFAULT_SETTINGS "/w" "π") = none := by
  refine ⟨?_, ?_, by decide⟩
  · intro h
    unfold getUrl btoa
    rw [if_pos]
    rw [List.all_eq_true]
    intro c hc
    exact decide_eq_true (h c hc)
  · rintro ⟨c, hc, hgt⟩
    unfold getUrl btoa
    rw [if_neg]
    intro hall
    have h2 := List.all_eq_true.mp hall c hc
    rw [decide_eq_true_eq] at h2
    omega
